import Mathlib

/-!
Verification development for the build-orchestrator execution core
(`atc`): the task step executor (`src/unnamed/part_004`, package `exec`)
and the worker pool (`src/worker/pool.go`, package `worker`).

The Go code is shallowly embedded: pure helpers become Lean functions,
the step's effectful collaborators (container runtime, volume manager,
image resource, process wait / cancellation select) are supplied by an
explicit environment record, and the observable side effects of one run
are collected as a list of events.
-/

namespace Atc

/-! ## Decimal strings

`fmt.Sprintf("%d", status)` formats the exit status, and
`fmt.Sscanf(prop, "%d", &step.exitStatus)` parses it back during
recovery.  We model the decimal formatting and parsing directly. -/

/-- Decimal digits of a natural number, least significant digit first;
`[]` for `0`. -/
def natDecRev (n : Nat) : List Nat :=
  if h : n = 0 then []
  else (n % 10) :: natDecRev (n / 10)
decreasing_by exact Nat.div_lt_self (Nat.pos_of_ne_zero h) (by decide)

/-- Value of a least-significant-first digit list. -/
def decRevToNat : List Nat → Nat
  | [] => 0
  | d :: ds => d + 10 * decRevToNat ds

theorem decRevToNat_natDecRev (n : Nat) : decRevToNat (natDecRev n) = n := by
  induction n using Nat.strong_induction_on with
  | _ n ih =>
    rw [natDecRev]
    split
    · simp [decRevToNat]; omega
    · rename_i h
      rw [decRevToNat, ih (n / 10) (Nat.div_lt_self (Nat.pos_of_ne_zero h) (by decide))]
      omega

theorem natDecRev_lt_ten (n : Nat) : ∀ d ∈ natDecRev n, d < 10 := by
  induction n using Nat.strong_induction_on with
  | _ n ih =>
    rw [natDecRev]
    split
    · simp
    · rename_i h
      intro d hd
      rcases List.mem_cons.mp hd with h1 | h1
      · omega
      · exact ih (n / 10) (Nat.div_lt_self (Nat.pos_of_ne_zero h) (by decide)) d h1

/-- The ASCII character of one decimal digit (code point 48 + d). -/
def digitToChar (d : Nat) : Char :=
  Char.ofNat (48 + d)

/-- The decimal digit denoted by a character, if any. -/
def charToDigit (c : Char) : Option Nat :=
  if '0' ≤ c ∧ c ≤ '9' then some (c.toNat - 48) else none

theorem charToDigit_digitToChar (d : Nat) (h : d < 10) :
    charToDigit (digitToChar d) = some d := by
  interval_cases d <;> decide

/-- Parse a run of decimal digit characters, most significant first,
with accumulator. -/
def parseDigitsFrom (acc : Nat) : List Char → Option Nat
  | [] => some acc
  | c :: cs =>
    match charToDigit c with
    | none => none
    | some d => parseDigitsFrom (acc * 10 + d) cs

theorem parseDigitsFrom_map (ds : List Nat) (h : ∀ d ∈ ds, d < 10) :
    ∀ acc, parseDigitsFrom acc (ds.map digitToChar) =
      some (ds.foldl (fun a d => a * 10 + d) acc) := by
  induction ds with
  | nil => intro acc; rfl
  | cons d ds ih =>
    intro acc
    have hd : d < 10 := h d (List.mem_cons_self d ds)
    simp only [List.map_cons, parseDigitsFrom, charToDigit_digitToChar d hd,
      List.foldl_cons]
    exact ih (fun x hx => h x (List.mem_cons_of_mem d hx)) (acc * 10 + d)

theorem foldl_reverse_decRev (ds : List Nat) :
    ∀ acc, ds.reverse.foldl (fun a d => a * 10 + d) acc =
      decRevToNat ds + acc * 10 ^ ds.length := by
  induction ds with
  | nil => intro acc; simp [decRevToNat]
  | cons d ds ih =>
    intro acc
    simp only [List.reverse_cons, List.foldl_append, List.foldl_cons,
      List.foldl_nil, ih acc, decRevToNat, List.length_cons]
    ring

/-- Decimal character representation of a natural number (the digits
emitted by `"%d"`). -/
def natToDecimal (n : Nat) : List Char :=
  if n = 0 then ['0'] else (natDecRev n).reverse.map digitToChar

theorem natToDecimal_ne_nil (n : Nat) : natToDecimal n ≠ [] := by
  rw [natToDecimal]
  split
  · simp
  · rename_i h
    rw [natDecRev]
    simp only [dite_eq_ite, if_neg h]
    simp

theorem parseDigitsFrom_natToDecimal (n : Nat) :
    parseDigitsFrom 0 (natToDecimal n) = some n := by
  rw [natToDecimal]
  split
  · rename_i h; subst h; rfl
  · have hd : ∀ d ∈ (natDecRev n).reverse, d < 10 := by
      intro d hd
      exact natDecRev_lt_ten n d (List.mem_reverse.mp hd)
    rw [parseDigitsFrom_map _ hd 0]
    rw [foldl_reverse_decRev]
    simp [decRevToNat_natDecRev]

theorem natToDecimal_head_isDigit (n : Nat) :
    ∀ c cs, natToDecimal n = c :: cs → (charToDigit c).isSome := by
  intro c cs h
  have hc : c ∈ natToDecimal n := by rw [h]; exact List.mem_cons_self c cs
  rw [natToDecimal] at hc
  split at hc
  · simp at hc; subst hc; rfl
  · rename_i hn
    rcases List.mem_map.mp hc with ⟨d, hd, rfl⟩
    have : d < 10 := natDecRev_lt_ten n d (List.mem_reverse.mp hd)
    rw [charToDigit_digitToChar d this]
    rfl

/-- Models `fmt.Sprintf("%d", status)` for a Go `int` exit status. -/
def intToDecimal (i : Int) : String :=
  match i with
  | .ofNat n => ⟨natToDecimal n⟩
  | .negSucc n => ⟨'-' :: natToDecimal (n + 1)⟩

/-- Models `fmt.Sscanf(s, "%d", &status)` on a canonical decimal string:
an optional minus sign followed by decimal digits. -/
def decimalToInt (s : String) : Option Int :=
  match s.data with
  | [] => none
  | c :: cs =>
    if c = '-' then
      if cs.isEmpty then none
      else (parseDigitsFrom 0 cs).map (fun n => -(n : Int))
    else (parseDigitsFrom 0 (c :: cs)).map (fun n => (n : Int))

theorem decimalToInt_intToDecimal (i : Int) :
    decimalToInt (intToDecimal i) = some i := by
  match i with
  | .ofNat n =>
    obtain ⟨c, cs, hcs⟩ : ∃ c cs, natToDecimal n = c :: cs := by
      cases h : natToDecimal n with
      | nil => exact absurd h (natToDecimal_ne_nil n)
      | cons c cs => exact ⟨c, cs, rfl⟩
    have hdig := natToDecimal_head_isDigit n c cs hcs
    have hne : ¬ c = '-' := by
      intro h
      subst h
      simp [charToDigit] at hdig
    have hparse := parseDigitsFrom_natToDecimal n
    rw [hcs] at hparse
    simp only [intToDecimal, decimalToInt, hcs, if_neg hne, hparse]
    rfl
  | .negSucc n =>
    have hparse := parseDigitsFrom_natToDecimal (n + 1)
    have hne : (natToDecimal (n + 1)).isEmpty = false := by
      cases h : natToDecimal (n + 1) with
      | nil => exact absurd h (natToDecimal_ne_nil (n + 1))
      | cons c cs => rfl
    simp [intToDecimal, decimalToInt, hne, hparse, Int.negSucc_eq]

/-! ## Data model

Workers, volume mounts, containers, task configuration and the
per-build source repository (`SourceRepository` in package `exec`). -/

/-- A live worker as observed by the pool.  `ownedByTeam` models
`Worker.IsOwnedByTeam()`; `hasVolumeManager` models whether
`Worker.VolumeManager()` reports a baggageclaim client; `volumes` holds
the handles of the volumes present on the worker, modelling
`baggageclaim.LookupVolume`. -/
structure Worker where
  name : String
  ownedByTeam : Bool := false
  hasVolumeManager : Bool := true
  volumes : List String := []
deriving DecidableEq

/-- The spec a task step hands to the pool (`worker.WorkerSpec`):
platform, tags, and the image resource type when an `image_resource` is
configured. -/
structure WorkerSpec where
  platform : String := ""
  tags : List String := []
  resourceType : String := ""
deriving DecidableEq

/-- A volume mounted into a container (`worker.VolumeMount`): the volume
handle and the mount path. -/
structure VolumeMount where
  volume : String
  mountPath : String
deriving DecidableEq

/-- A container as the step observes it: its property map
(`Property`/`SetProperty`) and the volume mounts it reports
(`VolumeMounts()`). -/
structure Container where
  properties : List (String × String) := []
  volumeMounts : List VolumeMount := []
deriving DecidableEq

/-- `container.Property(k)`: `some` the stored value, `none` models the
error garden returns for an absent property. -/
def Container.property (c : Container) (k : String) : Option String :=
  (c.properties.find? (fun p => p.1 == k)).map (·.2)

/-- `atc.TaskInputConfig`. -/
structure TaskInputConfig where
  name : String
  path : String := ""
deriving DecidableEq

/-- `atc.TaskOutputConfig`. -/
structure TaskOutputConfig where
  name : String
  path : String := ""
deriving DecidableEq

/-- `atc.ImageResource`: a resource type plus an opaque source. -/
structure ImageResource where
  type : String := ""
  source : List (String × String) := []
deriving DecidableEq

/-- `atc.TaskConfig`, restricted to the fields the executor reads. -/
structure TaskConfig where
  platform : String := ""
  image : String := ""
  imageResource : Option ImageResource := none
  params : List (String × String) := []
  runPath : String := ""
  runArgs : List String := []
  inputs : List TaskInputConfig := []
  outputs : List TaskOutputConfig := []

/-- An artifact source held in the source repository, modelled as the
tagged union of the kinds the task executor produces plus an `otherStep`
kind for sources registered by other steps (get steps etc.), whose
volume lookup behaviour is arbitrary. -/
inductive ArtifactSource where
  /-- The task step registered as its own source (no declared outputs):
  its `VolumeOn` always reports no volume. -/
  | taskStepDir
  /-- `containerSource` from `part_004`: streams from the task
  container; `volumeHandle` is `""` for a streaming-only source. -/
  | containerSource (artifactsRoot : String) (output : TaskOutputConfig)
      (volumeHandle : String)
  /-- A source registered by some other step; its volume lookup is the
  given function (it may fail, as `baggageclaim.LookupVolume` can). -/
  | otherStep (volumes : Worker → Except String (Option String))

/-- `ArtifactSource.VolumeOn(w)`: `.ok (some h)` when the source has a
volume (handle `h`) on `w`, `.ok none` when it does not, `.error` when
the lookup fails.  For `containerSource` this follows
`(*containerSource).VolumeOn`: a volume is reported iff the stored
handle is non-empty, the worker has a volume manager, and the lookup
finds the handle; `taskStepDir` follows `(*TaskStep).VolumeOn`, which
returns nothing. -/
def ArtifactSource.VolumeOn : ArtifactSource → Worker → Except String (Option String)
  | .taskStepDir, _ => .ok none
  | .containerSource _ _ handle, w =>
    if 0 < handle.length && w.hasVolumeManager then
      .ok (if w.volumes.contains handle then some handle else none)
    else
      .ok none
  | .otherStep f, w => f w

/-- The per-build source repository: name-to-source registrations, most
recent first (`RegisterSource` overwrites, last writer wins). -/
abbrev SourceRepository := List (String × ArtifactSource)

/-- `SourceRepository.RegisterSource`. -/
def registerRepo (repo : SourceRepository) (name : String)
    (src : ArtifactSource) : SourceRepository :=
  (name, src) :: repo

/-- `SourceRepository.SourceFor`. -/
def sourceFor (repo : SourceRepository) (name : String) : Option ArtifactSource :=
  (repo.find? (fun p => p.1 == name)).map (·.2)

/-! ## Worker pool (`src/worker/pool.go`) -/

/-- The two error values `pool.AllSatisfying` can return:
`ErrNoWorkers` for an empty pool, and `NoCompatibleWorkersError`
carrying the spec and the full worker list. -/
inductive PoolError where
  | noWorkers
  | noCompatibleWorkers (spec : WorkerSpec) (workers : List Worker)
deriving DecidableEq

/-- `pool.AllSatisfying`: errors with `ErrNoWorkers` on an empty pool;
otherwise partitions the workers that satisfy the spec (`satisfies w`
models `worker.Satisfying(spec, resourceTypes)` succeeding and, as in
the source, the satisfying worker returned is the worker itself) into
team-owned and general ones, preferring the team-owned list. -/
def allSatisfying (satisfies : Worker → Bool) (spec : WorkerSpec)
    (workers : List Worker) : Except PoolError (List Worker) :=
  if workers.isEmpty then .error .noWorkers
  else
    let acc := workers.foldl
      (fun (acc : List Worker × List Worker) w =>
        if satisfies w then
          if w.ownedByTeam then (acc.1 ++ [w], acc.2)
          else (acc.1, acc.2 ++ [w])
        else acc)
      ([], [])
    if !acc.1.isEmpty then .ok acc.1
    else if !acc.2.isEmpty then .ok acc.2
    else .error (.noCompatibleWorkers spec workers)

/-- `strings.Contains(s, pat)` on the underlying character lists. -/
def charsContains (pat : List Char) : List Char → Bool
  | [] => pat.isEmpty
  | c :: cs => pat.isPrefixOf (c :: cs) || charsContains pat cs

/-- `strings.Contains` for strings. -/
def strContains (s pat : String) : Bool :=
  charsContains pat.data s.data

/-- The error-message fragment `pool.findWorkerNotRunningVTXTask` checks
for before skipping a worker. -/
def maxContainersMessage : String :=
  "worker already has the maximum number of active containers"

/-- `pool.findWorkerNotRunningVTXTask`: try container creation
(`attempt w` models `worker.FindOrCreateBuildContainer`) on each
candidate in turn; skip a worker whose creation error mentions the
max-containers message, return any other error as is, and fail with the
exhaustion error when every candidate has been skipped. -/
def findWorkerNotRunningVTXTask (attempt : Worker → Except String Container) :
    List Worker → Except String Container
  | [] => .error "failed to create container on all compatible workers"
  | w :: rest =>
    match attempt w with
    | .error msg =>
      if strContains msg maxContainersMessage then
        findWorkerNotRunningVTXTask attempt rest
      else
        .error msg
    | .ok container => .ok container

/-! ## Task step executor (`src/unnamed/part_004`, package `exec`) -/

/-- The reserved container property `concourse:task-process`. -/
def taskProcessPropertyName : String := "concourse:task-process"

/-- The reserved container property `concourse:exit-status`. -/
def taskExitStatusPropertyName : String := "concourse:exit-status"

/-- The immutable parts of a `TaskStep`: its source name, artifacts
root, and tags. -/
structure StepCtx where
  sourceName : String := "some-task"
  artifactsRoot : String := "/tmp/build/abc"
  tags : List String := []

/-- The errors a task step run can surface. -/
inductive StepError where
  /-- `MissingInputsError`, listing the missing input names. -/
  | missingInputs (inputs : List String)
  /-- `ErrImageUnavailable` (`"no versions of image available"`). -/
  | imageUnavailable
  /-- `ErrImageGetDidNotProduceVolume` for the named task. -/
  | imageGetDidNotProduceVolume (taskName : String)
  /-- `ErrInterrupted`. -/
  | interrupted
  /-- An error bubbled up from `pool.AllSatisfying`. -/
  | pool (e : PoolError)
  /-- The error garden returns when a requested property is absent. -/
  | propertyMissing (k : String)
  /-- A `fmt.Sscanf` failure while parsing `concourse:exit-status`. -/
  | parseFailed (s : String)
  /-- Any other error carried through unchanged (volume lookup
  failures, container creation failures, process wait failures, ...). -/
  | msg (s : String)
  /-- Fuel exhaustion of the embedded `createContainer` recursion;
  unreachable when the fuel is the candidate-list length. -/
  | outOfFuel
deriving DecidableEq

/-- `inputPair`: a declared input together with its registered source,
queued for streaming because it had no volume on the chosen worker. -/
structure InputPair where
  input : TaskInputConfig
  source : ArtifactSource

/-- `(*TaskStep).inputDestination`: `filepath.Join(artifactsRoot, p)`
where `p` is the input's path, defaulting to its name. -/
def inputDestination (artifactsRoot : String) (config : TaskInputConfig) : String :=
  let subdir := if config.path = "" then config.name else config.path
  artifactsRoot ++ "/" ++ subdir

/-- `artifactsPath`: `path.Join(artifactsRoot, p) + "/"` where `p` is
the output's path, defaulting to its name. -/
def artifactsPath (artifactsRoot : String) (outputConfig : TaskOutputConfig) : String :=
  let outputSrc := if outputConfig.path = "" then outputConfig.name else outputConfig.path
  artifactsRoot ++ "/" ++ outputSrc ++ "/"

/-- The loop body of `(*TaskStep).inputsOn`, processing the declared
inputs in order.  An input with no registered source is recorded as
missing and skipped; otherwise its `VolumeOn` is consulted: a lookup
error aborts, a volume yields a mount at the input destination, and no
volume queues the input for streaming.  (The Go loop appends to three
slices; consing onto the recursive result builds the same ordered
lists.) -/
def inputsOnLoop (repo : SourceRepository) (artifactsRoot : String) (w : Worker) :
    List TaskInputConfig →
    Except String (List VolumeMount × List InputPair × List String)
  | [] => .ok ([], [], [])
  | input :: rest =>
    match sourceFor repo input.name with
    | none =>
      match inputsOnLoop repo artifactsRoot w rest with
      | .error e => .error e
      | .ok (mounts, pairs, missing) => .ok (mounts, pairs, input.name :: missing)
    | some source =>
      match source.VolumeOn w with
      | .error e => .error e
      | .ok (some volume) =>
        match inputsOnLoop repo artifactsRoot w rest with
        | .error e => .error e
        | .ok (mounts, pairs, missing) =>
          .ok (⟨volume, inputDestination artifactsRoot input⟩ :: mounts, pairs, missing)
      | .ok none =>
        match inputsOnLoop repo artifactsRoot w rest with
        | .error e => .error e
        | .ok (mounts, pairs, missing) =>
          .ok (mounts, ⟨input, source⟩ :: pairs, missing)

/-- `(*TaskStep).inputsOn`: partition the declared inputs into volume
mounts and inputs to stream; fail with `MissingInputsError` when any
input had no registered source. -/
def inputsOn (repo : SourceRepository) (artifactsRoot : String)
    (inputs : List TaskInputConfig) (w : Worker) :
    Except StepError (List VolumeMount × List InputPair) :=
  match inputsOnLoop repo artifactsRoot w inputs with
  | .error e => .error (.msg e)
  | .ok (mounts, pairs, missing) =>
    if missing.isEmpty then .ok (mounts, pairs)
    else .error (.missingInputs missing)

/-- The loop of `(*TaskStep).chooseWorkerWithMostVolumes`, carried over
the remaining workers with the incumbent choice and its mounts and
stream list.  A worker whose mount count is `≥` the incumbent's
replaces it (so later ties win). -/
def chooseLoop (repo : SourceRepository) (artifactsRoot : String)
    (inputs : List TaskInputConfig) :
    List Worker → Option Worker → List VolumeMount → List InputPair →
    Except StepError (Option Worker × List VolumeMount × List InputPair)
  | [], chosen, inputMounts, inputsToStream => .ok (chosen, inputMounts, inputsToStream)
  | w :: rest, chosen, inputMounts, inputsToStream =>
    match inputsOn repo artifactsRoot inputs w with
    | .error e => .error e
    | .ok (mounts, toStream) =>
      if inputMounts.length ≤ mounts.length then
        chooseLoop repo artifactsRoot inputs rest (some w) mounts toStream
      else
        chooseLoop repo artifactsRoot inputs rest chosen inputMounts inputsToStream

/-- `(*TaskStep).chooseWorkerWithMostVolumes`: fold `chooseLoop` over
the compatible workers starting from no choice and empty mounts. -/
def chooseWorkerWithMostVolumes (repo : SourceRepository) (artifactsRoot : String)
    (compatibleWorkers : List Worker) (inputs : List TaskInputConfig) :
    Except StepError (Option Worker × List VolumeMount × List InputPair) :=
  chooseLoop repo artifactsRoot inputs compatibleWorkers none [] []

/-- The observable actions of one task step run. -/
inductive Event where
  /-- A successful `worker.CreateContainer` on the given worker. -/
  | createdContainer (w : Worker)
  /-- A `baggageclaim.CreateVolume` for an output, on the given worker. -/
  | createdVolume (w : Worker)
  /-- `container.Run` started the task process. -/
  | startedProcess
  /-- `container.Attach` re-attached to the given process. -/
  | attached (processID : String)
  /-- `container.SetProperty(k, v)`. -/
  | setProperty (k v : String)
  /-- `container.Stop(kill)`. -/
  | stopped (kill : Bool)
  /-- `delegate.Finished(status)`. -/
  | delegateFinished (status : Int)
  /-- An input streamed into the container (`source.StreamTo`). -/
  | streamedInput (name : String)
deriving DecidableEq

/-- Which of the three channels the `select` at the end of
`(*TaskStep).Run` receives from first. -/
inductive WaitOutcome where
  | signalled
  | exited (status : Int)
  | failed (msg : String)
deriving DecidableEq

/-- The collaborator behaviour one run observes: the recovery-probe
result, the worker pool contents, and the outcomes of the remote calls
the step makes. -/
structure RunEnv where
  /-- Result of `FindContainerForIdentifier` for the run stage. -/
  foundContainer : Option Container := none
  /-- `provider.RunningWorkers()`. -/
  poolWorkers : List Worker := []
  /-- Whether `worker.Satisfying(spec, ...)` succeeds for a worker. -/
  satisfies : Worker → Bool := fun _ => true
  /-- `baggageclaimClient.CreateVolume` on a worker: the created
  handle, or a failure. -/
  createVolume : Worker → Except String String := fun _ => .ok "output-volume"
  /-- The version list `checkingResource.Check` produces, or a check
  failure. -/
  checkVersions : Except String (List String) := .ok []
  /-- Whether the image cache is already initialized. -/
  cacheInitialized : Bool := true
  /-- Outcome of running the image `Get` when the cache was not
  initialized. -/
  imageGetResult : Except String Unit := .ok ()
  /-- `imageResource.CacheVolume()`: the cached volume handle, if one
  emerged. -/
  cacheVolume : Option String := some "image-volume"
  /-- `chosenWorker.CreateContainer`: the created container, or a
  creation failure. -/
  createContainerOn : Worker → Except String Container := fun _ => .error "no runtime"
  /-- `process.ID()`. -/
  processID : String := "42"
  /-- Which arm of the wait select fires. -/
  waitOutcome : WaitOutcome := .exited 0

/-- The inner loop of `(*TaskStep).registerSource`: register a
volume-backed `containerSource` for every reported mount whose path
equals the output's artifacts path. -/
def registerMatchingMounts (ctx : StepCtx) (output : TaskOutputConfig)
    (mounts : List VolumeMount) (acc : SourceRepository) : SourceRepository :=
  mounts.foldl
    (fun acc2 mount =>
      if mount.mountPath == artifactsPath ctx.artifactsRoot output then
        registerRepo acc2 output.name
          (.containerSource ctx.artifactsRoot output mount.volume)
      else acc2)
    acc

/-- The body of the output loop in `(*TaskStep).registerSource`. -/
def registerOneOutput (ctx : StepCtx) (mounts : List VolumeMount)
    (acc : SourceRepository) (output : TaskOutputConfig) : SourceRepository :=
  if 0 < mounts.length then
    registerMatchingMounts ctx output mounts acc
  else
    registerRepo acc output.name (.containerSource ctx.artifactsRoot output "")

/-- `(*TaskStep).registerSource`: with no declared outputs, register
the step itself under its source name.  Otherwise, for each output: if
the container reported any volume mounts, register a volume-backed
`containerSource` for every mount whose path equals the output's
artifacts path; if the container reported none, register a
streaming-only `containerSource` (empty volume handle). -/
def registerSource (ctx : StepCtx) (config : TaskConfig) (container : Container)
    (repo : SourceRepository) : SourceRepository :=
  if config.outputs.isEmpty then
    registerRepo repo ctx.sourceName .taskStepDir
  else
    config.outputs.foldl (registerOneOutput ctx container.volumeMounts) repo

/-- The output-volume loop at the top of `(*TaskStep).createContainer`:
one volume per declared output, mounted at the output's artifacts path.
The loop breaks (keeping the mounts so far) when the worker has no
volume manager; a volume-creation failure aborts. -/
def createOutputVolumes (env : RunEnv) (artifactsRoot : String) (w : Worker) :
    List TaskOutputConfig → Except StepError (List VolumeMount)
  | [] => .ok []
  | output :: rest =>
    if w.hasVolumeManager then
      match env.createVolume w with
      | .error e => .error (.msg e)
      | .ok handle =>
        match createOutputVolumes env artifactsRoot w rest with
        | .error e => .error e
        | .ok mounts => .ok (⟨handle, artifactsPath artifactsRoot output⟩ :: mounts)
    else .ok []

/-- `(*TaskStep).getContainerImage` followed by the `CacheVolume` check
in `createContainer`: resolve the image volume for the container spec.
`.ok none` when the config uses a literal image; checking an
`image_resource` that yields no versions fails with
`ErrImageUnavailable`; a get that leaves no cached volume fails with
`ErrImageGetDidNotProduceVolume`. -/
def imageVolumeFor (ctx : StepCtx) (env : RunEnv) (config : TaskConfig) :
    Except StepError (Option String) :=
  match config.imageResource with
  | none => .ok none
  | some _ =>
    match env.checkVersions with
    | .error e => .error (.msg e)
    | .ok [] => .error .imageUnavailable
    | .ok (_ :: _) =>
      match (if env.cacheInitialized then .ok () else env.imageGetResult :
          Except String Unit) with
      | .error e => .error (.msg e)
      | .ok () =>
        match env.cacheVolume with
        | none => .error (.imageGetDidNotProduceVolume ctx.sourceName)
        | some handle => .ok (some handle)

/-- `(*TaskStep).createContainer`: choose the worker with the most
input volumes, create output volumes, resolve the image, and create the
container there; on a creation failure drop the chosen worker and
recurse on the remaining compatible workers, failing once none remain.
The recursion is driven by fuel; the caller passes the candidate-list
length, which the Go recursion never exceeds since each round removes
the chosen worker. -/
def createContainerLoop (ctx : StepCtx) (env : RunEnv) (config : TaskConfig)
    (repo : SourceRepository) :
    Nat → List Worker → Except StepError (Container × List InputPair) × List Event
  | 0, _ => (.error .outOfFuel, [])
  | fuel + 1, compatibleWorkers =>
    match chooseWorkerWithMostVolumes repo ctx.artifactsRoot compatibleWorkers
        config.inputs with
    | .error e => (.error e, [])
    | .ok (none, _, _) =>
      -- the Go code would dereference a nil worker here; unreachable
      -- because the pool never hands the step an empty candidate list
      (.error (.msg "no chosen worker"), [])
    | .ok (some chosenWorker, _, inputsToStream) =>
      match createOutputVolumes env ctx.artifactsRoot chosenWorker config.outputs with
      | .error e => (.error e, [])
      | .ok outputMounts =>
        let volEvents := outputMounts.map (fun _ => Event.createdVolume chosenWorker)
        match imageVolumeFor ctx env config with
        | .error e => (.error e, volEvents)
        | .ok _ =>
          match env.createContainerOn chosenWorker with
          | .error _ =>
            let newCompatibleWorkers :=
              compatibleWorkers.filter (fun w => w != chosenWorker)
            if newCompatibleWorkers.isEmpty then
              (.error (.msg "Failed to create container on all compatible workers"),
                volEvents)
            else
              let next := createContainerLoop ctx env config repo fuel
                newCompatibleWorkers
              (next.1, volEvents ++ next.2)
          | .ok container =>
            (.ok (container, inputsToStream), volEvents ++ [.createdContainer chosenWorker])

/-- The outcome of one `(*TaskStep).Run`: the returned error (if any),
the step's `exitStatus` field, the container the step ended up holding,
the source repository after the run, and the observable actions. -/
structure RunResult where
  result : Except StepError Unit
  exitStatus : Int
  container : Option Container
  repo : SourceRepository
  events : List Event

/-- The worker spec `(*TaskStep).Run` builds: the config's platform,
the step's tags, and the image resource type when an `image_resource`
is configured. -/
def taskWorkerSpec (ctx : StepCtx) (config : TaskConfig) : WorkerSpec :=
  { platform := config.platform
    tags := ctx.tags
    resourceType :=
      match config.imageResource with
      | some ir => ir.type
      | none => "" }

/-- The `select` at the end of `(*TaskStep).Run`, entered with the
container the step holds and the events so far.  On cancellation:
register sources, `Stop(kill=false)`, return `ErrInterrupted`.  On
process exit: register sources, store the exit status, write it (in
decimal) to `concourse:exit-status`, notify the delegate, succeed.  On
a wait error: return it. -/
def waitPhase (ctx : StepCtx) (config : TaskConfig) (env : RunEnv)
    (container : Container) (repo : SourceRepository) (events : List Event) :
    RunResult :=
  match env.waitOutcome with
  | .signalled =>
    { result := .error .interrupted
      exitStatus := 0
      container := some container
      repo := registerSource ctx config container repo
      events := events ++ [.stopped false] }
  | .exited status =>
    { result := .ok ()
      exitStatus := status
      container := some container
      repo := registerSource ctx config container repo
      events := events ++
        [.setProperty taskExitStatusPropertyName (intToDecimal status),
         .delegateFinished status] }
  | .failed msg =>
    { result := .error (.msg msg)
      exitStatus := 0
      container := some container
      repo := repo
      events := events }

/-- `(*TaskStep).Run`.  If the recovery probe finds a container: a
stored `concourse:exit-status` means the process already completed —
parse it, re-register sources, succeed; otherwise re-attach to the
process named by `concourse:task-process` (absence is a hard error) and
wait.  With no container found, select compatible workers, create the
container (streaming in the inputs that had no volume there), start the
process, record its id in `concourse:task-process`, and wait.
(`FetchConfig` is taken as already resolved into `config`, and the
remote calls modelled as always succeeding in the fresh path —
directory creation, streaming, `SetProperty` — are those whose failures
no claim concerns.) -/
def taskRun (ctx : StepCtx) (config : TaskConfig) (env : RunEnv)
    (repo : SourceRepository) : RunResult :=
  match env.foundContainer with
  | some container =>
    match container.property taskExitStatusPropertyName with
    | some exitStatusProp =>
      -- process already completed; recover result
      match decimalToInt exitStatusProp with
      | none =>
        { result := .error (.parseFailed exitStatusProp), exitStatus := 0
          container := some container, repo := repo, events := [] }
      | some status =>
        { result := .ok (), exitStatus := status
          container := some container
          repo := registerSource ctx config container repo, events := [] }
    | none =>
      match container.property taskProcessPropertyName with
      | none =>
        -- rogue container? perhaps did not shut down cleanly.
        { result := .error (.propertyMissing taskProcessPropertyName)
          exitStatus := 0, container := some container, repo := repo, events := [] }
      | some processID =>
        -- process still running; re-attach
        waitPhase ctx config env container repo [.attached processID]
  | none =>
    -- container does not exist; new session
    match allSatisfying env.satisfies (taskWorkerSpec ctx config) env.poolWorkers with
    | .error e =>
      { result := .error (.pool e), exitStatus := 0
        container := none, repo := repo, events := [] }
    | .ok compatibleWorkers =>
      match createContainerLoop ctx env config repo compatibleWorkers.length
          compatibleWorkers with
      | (.error e, events) =>
        { result := .error e, exitStatus := 0
          container := none, repo := repo, events := events }
      | (.ok (container, inputsToStream), events) =>
        waitPhase ctx config env container repo
          (events ++ inputsToStream.map (fun pair => .streamedInput pair.input.name) ++
            [.startedProcess, .setProperty taskProcessPropertyName env.processID])

/-- The `*Success` case of `(*TaskStep).Result`: true iff the recorded
exit status is `0`. -/
def resultSuccess (r : RunResult) : Bool :=
  r.exitStatus == 0

/-- The `*ExitStatus` case of `(*TaskStep).Result`. -/
def resultExitStatus (r : RunResult) : Int :=
  r.exitStatus

/-! ## Theorems -/

theorem satFold_eq (satisfies : Worker → Bool) (ws : List Worker) :
    ∀ a b : List Worker,
      ws.foldl
        (fun (acc : List Worker × List Worker) w =>
          if satisfies w then
            if w.ownedByTeam then (acc.1 ++ [w], acc.2)
            else (acc.1, acc.2 ++ [w])
          else acc)
        (a, b) =
      (a ++ ws.filter (fun w => satisfies w && w.ownedByTeam),
       b ++ ws.filter (fun w => satisfies w && !w.ownedByTeam)) := by
  induction ws with
  | nil => intro a b; simp
  | cons w ws ih =>
    intro a b
    by_cases hs : satisfies w
    · by_cases ho : w.ownedByTeam
      · simp [hs, ho, List.filter_cons, ih]
      · simp [hs, ho, List.filter_cons, ih]
    · simp [hs, List.filter_cons, ih]

/-- Claim C3: `AllSatisfying` applies the tenant-preference rule: if
any team-owned workers satisfy the spec it returns exactly the
satisfying team-owned workers; otherwise if any general workers satisfy
it, exactly those; otherwise it fails with the no-compatible-workers
error carrying the spec and the full worker list; and a pool with zero
workers fails with the distinct `no workers` error. -/
theorem allSatisfying_characterization (satisfies : Worker → Bool)
    (spec : WorkerSpec) (workers : List Worker) :
    (workers = [] → allSatisfying satisfies spec workers = .error .noWorkers) ∧
    (workers.filter (fun w => satisfies w && w.ownedByTeam) ≠ [] →
      allSatisfying satisfies spec workers =
        .ok (workers.filter (fun w => satisfies w && w.ownedByTeam))) ∧
    (workers ≠ [] →
      workers.filter (fun w => satisfies w && w.ownedByTeam) = [] →
      workers.filter (fun w => satisfies w && !w.ownedByTeam) ≠ [] →
      allSatisfying satisfies spec workers =
        .ok (workers.filter (fun w => satisfies w && !w.ownedByTeam))) ∧
    (workers ≠ [] →
      workers.filter (fun w => satisfies w && w.ownedByTeam) = [] →
      workers.filter (fun w => satisfies w && !w.ownedByTeam) = [] →
      allSatisfying satisfies spec workers =
        .error (.noCompatibleWorkers spec workers)) := by
  refine ⟨?_, ?_, ?_, ?_⟩
  · intro h; subst h; rfl
  · intro hteam
    have hne : workers ≠ [] := by
      intro h; subst h; simp at hteam
    rw [allSatisfying, satFold_eq]
    simp [hne, hteam]
  · intro hne hteam hgen
    rw [allSatisfying, satFold_eq]
    simp [hne, hteam, hgen]
  · intro hne hteam hgen
    rw [allSatisfying, satFold_eq]
    simp [hne, hteam, hgen]

/-- A creation attempt that `pool.findWorkerNotRunningVTXTask` skips:
an error whose message mentions the max-containers condition. -/
def isMaxContainersSkip (r : Except String Container) : Prop :=
  ∃ msg, r = .error msg ∧ strContains msg maxContainersMessage = true

theorem findVTX_allSkip (attempt : Worker → Except String Container) :
    ∀ workers : List Worker,
      (∀ w ∈ workers, isMaxContainersSkip (attempt w)) →
      findWorkerNotRunningVTXTask attempt workers =
        .error "failed to create container on all compatible workers" := by
  intro workers
  induction workers with
  | nil => intro _; rfl
  | cons w ws ih =>
    intro h
    obtain ⟨msg, hmsg, hskip⟩ := h w (List.mem_cons_self w ws)
    simp only [findWorkerNotRunningVTXTask, hmsg, hskip, if_pos]
    exact ih (fun x hx => h x (List.mem_cons_of_mem w hx))

theorem findVTX_firstOk (attempt : Worker → Except String Container) :
    ∀ (pre : List Worker) (w : Worker) (post : List Worker) (c : Container),
      (∀ x ∈ pre, isMaxContainersSkip (attempt x)) →
      attempt w = .ok c →
      findWorkerNotRunningVTXTask attempt (pre ++ w :: post) = .ok c := by
  intro pre
  induction pre with
  | nil =>
    intro w post c _ hw
    simp only [List.nil_append, findWorkerNotRunningVTXTask, hw]
  | cons x pre ih =>
    intro w post c hpre hw
    obtain ⟨msg, hmsg, hskip⟩ := hpre x (List.mem_cons_self x pre)
    simp only [List.cons_append, findWorkerNotRunningVTXTask, hmsg, hskip, if_pos]
    exact ih w post c (fun y hy => hpre y (List.mem_cons_of_mem x hy)) hw

theorem findVTX_firstFatal (attempt : Worker → Except String Container) :
    ∀ (pre : List Worker) (w : Worker) (post : List Worker) (msg : String),
      (∀ x ∈ pre, isMaxContainersSkip (attempt x)) →
      attempt w = .error msg →
      strContains msg maxContainersMessage = false →
      findWorkerNotRunningVTXTask attempt (pre ++ w :: post) = .error msg := by
  intro pre
  induction pre with
  | nil =>
    intro w post msg _ hw hfatal
    simp only [List.nil_append, findWorkerNotRunningVTXTask, hw, hfatal,
      Bool.false_eq_true, if_neg, ite_false]
  | cons x pre ih =>
    intro w post msg hpre hw hfatal
    obtain ⟨m, hm, hskip⟩ := hpre x (List.mem_cons_self x pre)
    simp only [List.cons_append, findWorkerNotRunningVTXTask, hm, hskip, if_pos]
    exact ih w post msg (fun y hy => hpre y (List.mem_cons_of_mem x hy)) hw hfatal

/-- Claim C4: pool placement fallback: container creation is attempted
on each candidate worker in turn; a worker failing with the
max-active-containers error is skipped, any other creation error is
returned as fatal immediately, and when every candidate has been
skipped the call fails with `failed to create container on all
compatible workers`. -/
theorem findWorkerNotRunningVTXTask_policy
    (attempt : Worker → Except String Container) (workers : List Worker) :
    ((∀ w ∈ workers, isMaxContainersSkip (attempt w)) →
      findWorkerNotRunningVTXTask attempt workers =
        .error "failed to create container on all compatible workers") ∧
    (∀ pre w post c, workers = pre ++ w :: post →
      (∀ x ∈ pre, isMaxContainersSkip (attempt x)) →
      attempt w = .ok c →
      findWorkerNotRunningVTXTask attempt workers = .ok c) ∧
    (∀ pre w post msg, workers = pre ++ w :: post →
      (∀ x ∈ pre, isMaxContainersSkip (attempt x)) →
      attempt w = .error msg →
      strContains msg maxContainersMessage = false →
      findWorkerNotRunningVTXTask attempt workers = .error msg) := by
  refine ⟨findVTX_allSkip attempt workers, ?_, ?_⟩
  · intro pre w post c hsplit hpre hw
    rw [hsplit]
    exact findVTX_firstOk attempt pre w post c hpre hw
  · intro pre w post msg hsplit hpre hw hfatal
    rw [hsplit]
    exact findVTX_firstFatal attempt pre w post msg hpre hw hfatal

theorem allSatisfying_characterization_witness :
    allSatisfying (fun _ => true) ({} : WorkerSpec)
      [{ name := "team-worker", ownedByTeam := true }] =
      .ok (List.filter (fun w => (fun _ => true) w && w.ownedByTeam)
        [{ name := "team-worker", ownedByTeam := true }]) :=
  (allSatisfying_characterization (fun _ => true) {}
    [{ name := "team-worker", ownedByTeam := true }]).2.1 (by decide)

theorem findWorkerNotRunningVTXTask_policy_witness :
    findWorkerNotRunningVTXTask
      (fun w => if w.name == "full" then .error maxContainersMessage
        else .ok { properties := [], volumeMounts := [] })
      [{ name := "full" }, { name := "free" }] =
      .ok { properties := [], volumeMounts := [] } :=
  (findWorkerNotRunningVTXTask_policy
      (fun w => if w.name == "full" then .error maxContainersMessage
        else .ok { properties := [], volumeMounts := [] })
      [{ name := "full" }, { name := "free" }]).2.1
    [{ name := "full" }] { name := "free" } [] { properties := [], volumeMounts := [] }
    rfl
    (by
      intro x hx
      simp only [List.mem_singleton] at hx
      subst hx
      exact ⟨maxContainersMessage, rfl, by rfl⟩)
    rfl

/-- Claim C5: when the cancellation signal arrives while waiting for
the process, the step registers its outputs into the source repository,
calls `Stop` with `kill=false` on the container, and returns the
interrupted error. -/
theorem taskRun_cancellation (ctx : StepCtx) (config : TaskConfig) (env : RunEnv)
    (repo : SourceRepository) (c : Container) (pid : String)
    (hfound : env.foundContainer = some c)
    (hnoexit : c.property taskExitStatusPropertyName = none)
    (hproc : c.property taskProcessPropertyName = some pid)
    (hsig : env.waitOutcome = .signalled) :
    (taskRun ctx config env repo).result = .error .interrupted ∧
    (taskRun ctx config env repo).repo = registerSource ctx config c repo ∧
    Event.stopped false ∈ (taskRun ctx config env repo).events := by
  simp [taskRun, hfound, hnoexit, hproc, waitPhase, hsig]

theorem taskRun_cancellation_witness :
    (taskRun {} {}
        { foundContainer := some { properties := [(taskProcessPropertyName, "9")] }
          waitOutcome := .signalled }
        []).result = .error .interrupted ∧
    (taskRun {} {}
        { foundContainer := some { properties := [(taskProcessPropertyName, "9")] }
          waitOutcome := .signalled }
        []).repo =
      registerSource {} {} { properties := [(taskProcessPropertyName, "9")] } [] ∧
    Event.stopped false ∈
      (taskRun {} {}
        { foundContainer := some { properties := [(taskProcessPropertyName, "9")] }
          waitOutcome := .signalled }
        []).events :=
  taskRun_cancellation {} {}
    { foundContainer := some { properties := [(taskProcessPropertyName, "9")] }
      waitOutcome := .signalled }
    [] { properties := [(taskProcessPropertyName, "9")] } "9" rfl rfl rfl rfl

/-- Claim C6: when the process exits with code `E`, the step records
the container property `concourse:exit-status` as the decimal string of
`E` before returning success, and the step's result accessor thereafter
reports success exactly when `E = 0` and the exit status `E` itself. -/
theorem taskRun_exitStatusRecording (ctx : StepCtx) (config : TaskConfig)
    (env : RunEnv) (repo : SourceRepository) (c : Container) (pid : String) (E : Int)
    (hfound : env.foundContainer = some c)
    (hnoexit : c.property taskExitStatusPropertyName = none)
    (hproc : c.property taskProcessPropertyName = some pid)
    (hexit : env.waitOutcome = .exited E) :
    (taskRun ctx config env repo).result = .ok () ∧
    Event.setProperty taskExitStatusPropertyName (intToDecimal E) ∈
      (taskRun ctx config env repo).events ∧
    (resultSuccess (taskRun ctx config env repo) = true ↔ E = 0) ∧
    resultExitStatus (taskRun ctx config env repo) = E := by
  simp [taskRun, hfound, hnoexit, hproc, waitPhase, hexit, resultSuccess,
    resultExitStatus]

theorem taskRun_exitStatusRecording_witness :
    (taskRun {} {}
        { foundContainer := some { properties := [(taskProcessPropertyName, "9")] }
          waitOutcome := .exited 3 }
        []).result = .ok () ∧
    Event.setProperty taskExitStatusPropertyName (intToDecimal 3) ∈
      (taskRun {} {}
        { foundContainer := some { properties := [(taskProcessPropertyName, "9")] }
          waitOutcome := .exited 3 }
        []).events ∧
    (resultSuccess (taskRun {} {}
        { foundContainer := some { properties := [(taskProcessPropertyName, "9")] }
          waitOutcome := .exited 3 }
        []) = true ↔ (3 : Int) = 0) ∧
    resultExitStatus (taskRun {} {}
        { foundContainer := some { properties := [(taskProcessPropertyName, "9")] }
          waitOutcome := .exited 3 }
        []) = 3 :=
  taskRun_exitStatusRecording {} {}
    { foundContainer := some { properties := [(taskProcessPropertyName, "9")] }
      waitOutcome := .exited 3 }
    [] { properties := [(taskProcessPropertyName, "9")] } "9" 3 rfl rfl rfl rfl

theorem sourceFor_registerRepo_self (repo : SourceRepository) (name : String)
    (src : ArtifactSource) :
    sourceFor (registerRepo repo name src) name = some src := by
  simp [sourceFor, registerRepo, List.find?_cons_of_pos]

/-- Claim C10: the source a task step registers for itself when the
config declares no outputs is the step's own working directory, and its
`VolumeOn` reports no volume, no presence and no error for every
worker, so downstream consumers always stream it. -/
theorem taskStep_selfSource_noVolume (ctx : StepCtx) (config : TaskConfig)
    (c : Container) (repo : SourceRepository) (hout : config.outputs = []) :
    sourceFor (registerSource ctx config c repo) ctx.sourceName =
      some .taskStepDir ∧
    ∀ w, ArtifactSource.VolumeOn .taskStepDir w = .ok none := by
  constructor
  · rw [registerSource]
    simp only [hout, List.isEmpty_nil, if_pos]
    exact sourceFor_registerRepo_self repo ctx.sourceName .taskStepDir
  · intro w; rfl

theorem registerSource_mounts_congr (ctx : StepCtx) (config : TaskConfig)
    (c c2 : Container) (repo : SourceRepository)
    (h : c.volumeMounts = c2.volumeMounts) :
    registerSource ctx config c repo = registerSource ctx config c2 repo := by
  simp only [registerSource, h]

theorem taskRun_ok_shape (ctx : StepCtx) (config : TaskConfig) (env : RunEnv)
    (repo : SourceRepository) :
    (taskRun ctx config env repo).result = .ok () →
    ∃ c, (taskRun ctx config env repo).container = some c ∧
      (taskRun ctx config env repo).repo = registerSource ctx config c repo := by
  unfold taskRun waitPhase
  split
  · split
    · split
      · simp
      · intro _; exact ⟨_, rfl, rfl⟩
    · split
      · simp
      · split
        · simp
        · intro _; exact ⟨_, rfl, rfl⟩
        · simp
  · split
    · simp
    · split
      · simp
      · split
        · simp
        · intro _; exact ⟨_, rfl, rfl⟩
        · simp

theorem taskRun_recovery_eval (ctx : StepCtx) (config : TaskConfig) (env : RunEnv)
    (repo : SourceRepository) (c : Container) (s : String) (v : Int)
    (hfound : env.foundContainer = some c)
    (hprop : c.property taskExitStatusPropertyName = some s)
    (hparse : decimalToInt s = some v) :
    taskRun ctx config env repo =
      { result := .ok (), exitStatus := v, container := some c
        repo := registerSource ctx config c repo, events := [] } := by
  rw [taskRun, hfound]
  simp only [hprop, hparse]

/-- Claim C2: task step recovery is idempotent: if a run of the step
finds a container carrying `concourse:exit-status` holding the decimal
string of the original run's exit status (with the same reported volume
mounts), it parses that stored status, re-registers the outputs into
the source repository, and returns success while performing no actions
at all — in particular creating no container and starting no process —
yielding the same outcome (exit status and registered sources) as the
original successful run. -/
theorem taskRun_recovery_idempotent (ctx : StepCtx) (config : TaskConfig)
    (envOrig envAgain : RunEnv) (repo : SourceRepository) (c cOrig : Container)
    (hok : (taskRun ctx config envOrig repo).result = .ok ())
    (hcont : (taskRun ctx config envOrig repo).container = some cOrig)
    (hfound : envAgain.foundContainer = some c)
    (hprop : c.property taskExitStatusPropertyName =
      some (intToDecimal (taskRun ctx config envOrig repo).exitStatus))
    (hmounts : c.volumeMounts = cOrig.volumeMounts) :
    (taskRun ctx config envAgain repo).result = .ok () ∧
    (taskRun ctx config envAgain repo).exitStatus =
      (taskRun ctx config envOrig repo).exitStatus ∧
    (taskRun ctx config envAgain repo).repo = (taskRun ctx config envOrig repo).repo ∧
    (taskRun ctx config envAgain repo).events = [] := by
  obtain ⟨c1, hc1, hrepo1⟩ := taskRun_ok_shape ctx config envOrig repo hok
  have hco : c1 = cOrig := by
    rw [hc1] at hcont
    exact Option.some.inj hcont
  subst hco
  have hreg : registerSource ctx config c repo = registerSource ctx config c1 repo :=
    registerSource_mounts_congr ctx config c c1 repo hmounts
  have heval := taskRun_recovery_eval ctx config envAgain repo c
    (intToDecimal (taskRun ctx config envOrig repo).exitStatus)
    (taskRun ctx config envOrig repo).exitStatus
    hfound hprop (decimalToInt_intToDecimal _)
  rw [heval]
  refine ⟨rfl, rfl, ?_, rfl⟩
  rw [hrepo1]
  exact hreg

theorem taskRun_recovery_idempotent_witness :
    (taskRun {} {}
        { foundContainer := some { properties := [(taskExitStatusPropertyName, "0")] } }
        []).result = .ok () ∧
    (taskRun {} {}
        { foundContainer := some { properties := [(taskExitStatusPropertyName, "0")] } }
        []).exitStatus =
      (taskRun {} {}
        { poolWorkers := [{ name := "w1", hasVolumeManager := false }]
          createContainerOn := fun _ => .ok { properties := [] } }
        []).exitStatus ∧
    (taskRun {} {}
        { foundContainer := some { properties := [(taskExitStatusPropertyName, "0")] } }
        []).repo =
      (taskRun {} {}
        { poolWorkers := [{ name := "w1", hasVolumeManager := false }]
          createContainerOn := fun _ => .ok { properties := [] } }
        []).repo ∧
    (taskRun {} {}
        { foundContainer := some { properties := [(taskExitStatusPropertyName, "0")] } }
        []).events = [] :=
  taskRun_recovery_idempotent {} {}
    { poolWorkers := [{ name := "w1", hasVolumeManager := false }]
      createContainerOn := fun _ => .ok { properties := [] } }
    { foundContainer := some { properties := [(taskExitStatusPropertyName, "0")] } }
    [] { properties := [(taskExitStatusPropertyName, "0")] } { properties := [] }
    rfl rfl rfl rfl rfl

theorem inputsOnLoop_missing (repo : SourceRepository) (root : String) (w : Worker) :
    ∀ inputs : List TaskInputConfig,
      (∀ i ∈ inputs, ∀ src, sourceFor repo i.name = some src →
        ∃ r, src.VolumeOn w = .ok r) →
      ∃ mounts pairs, inputsOnLoop repo root w inputs =
        .ok (mounts, pairs,
          (inputs.filter (fun i => (sourceFor repo i.name).isNone)).map (·.name)) := by
  intro inputs
  induction inputs with
  | nil => intro _; exact ⟨[], [], rfl⟩
  | cons i rest ih =>
    intro hvol
    obtain ⟨m, p, hm⟩ := ih (fun x hx => hvol x (List.mem_cons_of_mem i hx))
    cases hsf : sourceFor repo i.name with
    | none =>
      refine ⟨m, p, ?_⟩
      simp [inputsOnLoop, hsf, hm, List.filter_cons]
    | some src =>
      obtain ⟨r, hr⟩ := hvol i (List.mem_cons_self i rest) src hsf
      cases r with
      | none =>
        refine ⟨m, ⟨i, src⟩ :: p, ?_⟩
        simp [inputsOnLoop, hsf, hr, hm, List.filter_cons]
      | some v =>
        refine ⟨⟨v, inputDestination root i⟩ :: m, p, ?_⟩
        simp [inputsOnLoop, hsf, hr, hm, List.filter_cons]

/-- Claim C8: a task step whose declared inputs include at least one
name with no source registered in the source repository fails with a
missing-inputs error listing exactly the names of the missing inputs,
in declaration order.  (The hypothesis on `VolumeOn` pins down the
environment: volume lookups for the inputs that are present succeed, as
a lookup failure would surface first.) -/
theorem taskRun_missingInputs (ctx : StepCtx) (config : TaskConfig) (env : RunEnv)
    (repo : SourceRepository) (w0 : Worker) (rest : List Worker)
    (hfound : env.foundContainer = none)
    (hsat : allSatisfying env.satisfies (taskWorkerSpec ctx config) env.poolWorkers =
      .ok (w0 :: rest))
    (hvol : ∀ i ∈ config.inputs, ∀ src, sourceFor repo i.name = some src →
      ∃ r, src.VolumeOn w0 = .ok r)
    (hmiss : config.inputs.filter (fun i => (sourceFor repo i.name).isNone) ≠ []) :
    (taskRun ctx config env repo).result =
      .error (.missingInputs
        ((config.inputs.filter (fun i => (sourceFor repo i.name).isNone)).map
          (·.name))) := by
  obtain ⟨m, p, hloop⟩ :=
    inputsOnLoop_missing repo ctx.artifactsRoot w0 config.inputs hvol
  have hnames :
      ((config.inputs.filter (fun i => (sourceFor repo i.name).isNone)).map
        (·.name)).isEmpty = false := by
    cases h : config.inputs.filter (fun i => (sourceFor repo i.name).isNone) with
    | nil => exact absurd h hmiss
    | cons a l => simp [h]
  have hio : inputsOn repo ctx.artifactsRoot config.inputs w0 =
      .error (.missingInputs
        ((config.inputs.filter (fun i => (sourceFor repo i.name).isNone)).map
          (·.name))) := by
    rw [inputsOn, hloop]
    simp [hnames]
  rw [taskRun, hfound]
  simp only [hsat, List.length_cons, createContainerLoop,
    chooseWorkerWithMostVolumes, chooseLoop, hio]

theorem taskRun_missingInputs_witness :
    (taskRun {} { inputs := [{ name := "in1" }] }
        { poolWorkers := [{ name := "w1" }] } []).result =
      .error (.missingInputs
        ((List.filter (fun i => (sourceFor [] i.name).isNone)
          [({ name := "in1" } : TaskInputConfig)]).map (·.name))) :=
  taskRun_missingInputs {} { inputs := [{ name := "in1" }] }
    { poolWorkers := [{ name := "w1" }] } [] { name := "w1" } []
    rfl rfl
    (by
      intro i hi src hsrc
      simp [sourceFor] at hsrc)
    (by decide)

/-- Claim C9: a task step with an `image_resource` whose check yields
an empty version list fails with the image-unavailable error before any
task container is created. -/
theorem taskRun_imageUnavailable (ctx : StepCtx) (config : TaskConfig) (env : RunEnv)
    (repo : SourceRepository) (ir : ImageResource) (ws : List Worker) (cw : Worker)
    (mounts : List VolumeMount) (toStream : List InputPair) (om : List VolumeMount)
    (hfound : env.foundContainer = none)
    (himg : config.imageResource = some ir)
    (hsat : allSatisfying env.satisfies (taskWorkerSpec ctx config) env.poolWorkers =
      .ok ws)
    (hchoose : chooseWorkerWithMostVolumes repo ctx.artifactsRoot ws config.inputs =
      .ok (some cw, mounts, toStream))
    (hvols : createOutputVolumes env ctx.artifactsRoot cw config.outputs = .ok om)
    (hcheck : env.checkVersions = .ok []) :
    (taskRun ctx config env repo).result = .error .imageUnavailable ∧
    ∀ w, Event.createdContainer w ∉ (taskRun ctx config env repo).events := by
  have himgvol : imageVolumeFor ctx env config = .error .imageUnavailable := by
    rw [imageVolumeFor, himg]
    simp only [hcheck]
  obtain ⟨a, ws2, rfl⟩ : ∃ a ws2, ws = a :: ws2 := by
    cases ws with
    | nil =>
      exfalso
      rw [chooseWorkerWithMostVolumes, chooseLoop] at hchoose
      simp at hchoose
    | cons a ws2 => exact ⟨a, ws2, rfl⟩
  have heval : taskRun ctx config env repo =
      { result := .error .imageUnavailable, exitStatus := 0, container := none
        repo := repo, events := om.map (fun _ => Event.createdVolume cw) } := by
    rw [taskRun, hfound]
    simp only [hsat, List.length_cons, createContainerLoop, hchoose, hvols, himgvol]
  rw [heval]
  refine ⟨rfl, ?_⟩
  intro w hmem
  simp only [List.mem_map] at hmem
  obtain ⟨x, _, hx⟩ := hmem
  cases hx

theorem taskRun_imageUnavailable_witness :
    (taskRun {} { imageResource := some { type := "docker-image" } }
        { poolWorkers := [{ name := "w1" }], checkVersions := .ok [] } []).result =
      .error .imageUnavailable ∧
    ∀ w, Event.createdContainer w ∉
      (taskRun {} { imageResource := some { type := "docker-image" } }
        { poolWorkers := [{ name := "w1" }], checkVersions := .ok [] } []).events :=
  taskRun_imageUnavailable {} { imageResource := some { type := "docker-image" } }
    { poolWorkers := [{ name := "w1" }], checkVersions := .ok [] } []
    { type := "docker-image" } [{ name := "w1" }] { name := "w1" } [] [] []
    rfl rfl rfl rfl rfl rfl

theorem chooseLoop_ok_spec (repo : SourceRepository) (root : String)
    (inputs : List TaskInputConfig) :
    ∀ (ws : List Worker) (chosen : Option Worker) (bm : List VolumeMount)
      (bs : List InputPair) (cw : Option Worker) (mounts : List VolumeMount)
      (stream : List InputPair),
      chooseLoop repo root inputs ws chosen bm bs = .ok (cw, mounts, stream) →
      (∀ w ∈ ws, ∀ m s, inputsOn repo root inputs w = .ok (m, s) →
        m.length ≤ mounts.length) ∧
      bm.length ≤ mounts.length ∧
      ((cw = chosen ∧ mounts = bm ∧ stream = bs ∧
          (∀ w ∈ ws, ∀ m s, inputsOn repo root inputs w = .ok (m, s) →
            m.length < bm.length)) ∨
        (∃ c pre post, cw = some c ∧ ws = pre ++ c :: post ∧
          inputsOn repo root inputs c = .ok (mounts, stream) ∧
          (∀ w ∈ post, ∀ m s, inputsOn repo root inputs w = .ok (m, s) →
            m.length < mounts.length))) := by
  intro ws
  induction ws with
  | nil =>
    intro chosen bm bs cw mounts stream h
    simp only [chooseLoop, Except.ok.injEq, Prod.mk.injEq] at h
    obtain ⟨h1, h2, h3⟩ := h
    subst h1; subst h2; subst h3
    refine ⟨by simp, Nat.le_refl _, .inl ⟨rfl, rfl, rfl, by simp⟩⟩
  | cons w ws ih =>
    intro chosen bm bs cw mounts stream h
    cases hw : inputsOn repo root inputs w with
    | error e =>
      simp only [chooseLoop, hw] at h
      exact Except.noConfusion h
    | ok pr =>
      obtain ⟨m, s⟩ := pr
      simp only [chooseLoop, hw] at h
      by_cases hle : bm.length ≤ m.length
      · rw [if_pos hle] at h
        obtain ⟨A, B, C⟩ := ih (some w) m s cw mounts stream h
        refine ⟨?_, Nat.le_trans hle B, ?_⟩
        · intro x hx m2 s2 hx2
          rcases List.mem_cons.mp hx with rfl | hx
          · rw [hw] at hx2
            simp only [Except.ok.injEq, Prod.mk.injEq] at hx2
            obtain ⟨h1, _⟩ := hx2
            subst h1
            exact B
          · exact A x hx m2 s2 hx2
        · rcases C with ⟨hcw, hmounts, hstream, hstrict⟩ |
            ⟨c, pre, post, hc, hsplit, hcin, hpost⟩
          · right
            subst hcw; subst hmounts; subst hstream
            exact ⟨w, [], ws, rfl, rfl, hw, hstrict⟩
          · right
            exact ⟨c, w :: pre, post, hc, by rw [hsplit, List.cons_append], hcin, hpost⟩
      · rw [if_neg hle] at h
        obtain ⟨A, B, C⟩ := ih chosen bm bs cw mounts stream h
        have hmlt : m.length < bm.length := Nat.lt_of_not_le hle
        refine ⟨?_, B, ?_⟩
        · intro x hx m2 s2 hx2
          rcases List.mem_cons.mp hx with rfl | hx
          · rw [hw] at hx2
            simp only [Except.ok.injEq, Prod.mk.injEq] at hx2
            obtain ⟨h1, _⟩ := hx2
            subst h1
            exact Nat.le_trans (Nat.le_of_lt hmlt) B
          · exact A x hx m2 s2 hx2
        · rcases C with ⟨hcw, hmounts, hstream, hstrict⟩ |
            ⟨c, pre, post, hc, hsplit, hcin, hpost⟩
          · left
            refine ⟨hcw, hmounts, hstream, ?_⟩
            intro x hx m2 s2 hx2
            rcases List.mem_cons.mp hx with rfl | hx
            · rw [hw] at hx2
              simp only [Except.ok.injEq, Prod.mk.injEq] at hx2
              obtain ⟨h1, _⟩ := hx2
              subst h1
              exact hmlt
            · exact hstrict x hx m2 s2 hx2
          · right
            exact ⟨c, w :: pre, post, hc, by rw [hsplit, List.cons_append], hcin, hpost⟩

theorem chooseLoop_total (repo : SourceRepository) (root : String)
    (inputs : List TaskInputConfig) :
    ∀ ws : List Worker,
      (∀ w ∈ ws, ∃ m s, inputsOn repo root inputs w = .ok (m, s)) →
      ∀ (chosen : Option Worker) (bm : List VolumeMount) (bs : List InputPair),
        ∃ cw mounts stream,
          chooseLoop repo root inputs ws chosen bm bs = .ok (cw, mounts, stream) ∧
          (cw = chosen ∨ cw.isSome) := by
  intro ws
  induction ws with
  | nil => intro _ chosen bm bs; exact ⟨chosen, bm, bs, rfl, .inl rfl⟩
  | cons w ws ih =>
    intro hok chosen bm bs
    obtain ⟨m, s, hw⟩ := hok w (List.mem_cons_self w ws)
    by_cases hle : bm.length ≤ m.length
    · obtain ⟨cw, mounts, stream, hloop, hor⟩ :=
        ih (fun x hx => hok x (List.mem_cons_of_mem w hx)) (some w) m s
      refine ⟨cw, mounts, stream, ?_, ?_⟩
      · simp only [chooseLoop, hw, if_pos hle]
        exact hloop
      · right
        rcases hor with rfl | h
        · rfl
        · exact h
    · obtain ⟨cw, mounts, stream, hloop, hor⟩ :=
        ih (fun x hx => hok x (List.mem_cons_of_mem w hx)) chosen bm bs
      refine ⟨cw, mounts, stream, ?_, hor⟩
      simp only [chooseLoop, hw, if_neg hle]
      exact hloop

/-- Claim C1 (amended): for every non-empty list of compatible workers
whose input partitioning succeeds, the worker chosen by
`chooseWorkerWithMostVolumes` has an input-mount count greater than or
equal to that of every other compatible worker; but ties are broken in
favour of the later worker in pool order (the replace-on-`>=`
comparison keeps the last worker attaining the maximum), not stably in
favour of the earlier one: every worker after the chosen one counts
strictly fewer input mounts. -/
theorem chooseWorker_maximisesVolumes (repo : SourceRepository) (root : String)
    (ws : List Worker) (inputs : List TaskInputConfig)
    (hne : ws ≠ [])
    (hok : ∀ w ∈ ws, ∃ m s, inputsOn repo root inputs w = .ok (m, s)) :
    ∃ cw mounts stream,
      chooseWorkerWithMostVolumes repo root ws inputs =
        .ok (some cw, mounts, stream) ∧
      inputsOn repo root inputs cw = .ok (mounts, stream) ∧
      (∀ w ∈ ws, ∀ m s, inputsOn repo root inputs w = .ok (m, s) →
        m.length ≤ mounts.length) ∧
      ∃ pre post, ws = pre ++ cw :: post ∧
        (∀ w ∈ post, ∀ m s, inputsOn repo root inputs w = .ok (m, s) →
          m.length < mounts.length) := by
  obtain ⟨w, rest, rfl⟩ : ∃ w rest, ws = w :: rest := by
    cases ws with
    | nil => exact absurd rfl hne
    | cons w rest => exact ⟨w, rest, rfl⟩
  obtain ⟨m, s, hw⟩ := hok w (List.mem_cons_self w rest)
  obtain ⟨cw0, mounts, stream, hloop, hor⟩ :=
    chooseLoop_total repo root inputs rest
      (fun x hx => hok x (List.mem_cons_of_mem w hx)) (some w) m s
  have hchoose : chooseWorkerWithMostVolumes repo root (w :: rest) inputs =
      .ok (cw0, mounts, stream) := by
    rw [chooseWorkerWithMostVolumes]
    simp only [chooseLoop, hw, List.length_nil, if_pos (Nat.zero_le m.length)]
    exact hloop
  have hsome : cw0.isSome := by
    rcases hor with rfl | h
    · rfl
    · exact h
  obtain ⟨cw, rfl⟩ := Option.isSome_iff_exists.mp hsome
  obtain ⟨A, _, C⟩ := chooseLoop_ok_spec repo root inputs (w :: rest) none [] []
    (some cw) mounts stream hchoose
  rcases C with ⟨hcw, _, _, _⟩ | ⟨c, pre, post, hc, hsplit, hcin, hpost⟩
  · cases hcw
  · have hcc : cw = c := Option.some.inj hc
    subst hcc
    exact ⟨cw, mounts, stream, hchoose, hcin, A, pre, post, hsplit, hpost⟩

theorem chooseWorker_maximisesVolumes_witness :
    ∃ cw mounts stream,
      chooseWorkerWithMostVolumes [] "/tmp/build/abc"
        [{ name := "w1" }, { name := "w2" }] [] =
        .ok (some cw, mounts, stream) ∧
      inputsOn [] "/tmp/build/abc" [] cw = .ok (mounts, stream) ∧
      (∀ w ∈ [({ name := "w1" } : Worker), { name := "w2" }], ∀ m s,
        inputsOn [] "/tmp/build/abc" [] w = .ok (m, s) →
        m.length ≤ mounts.length) ∧
      ∃ pre post,
        [({ name := "w1" } : Worker), { name := "w2" }] = pre ++ cw :: post ∧
        (∀ w ∈ post, ∀ m s, inputsOn [] "/tmp/build/abc" [] w = .ok (m, s) →
          m.length < mounts.length) :=
  chooseWorker_maximisesVolumes [] "/tmp/build/abc"
    [{ name := "w1" }, { name := "w2" }] []
    (by decide)
    (by intro w hw; exact ⟨[], [], rfl⟩)

/-- Claim C1 counterexample: two compatible workers tie on the input
mount count (no declared inputs, so both counts are zero), yet the
routine chooses the second worker in pool order, not the first — the
tie is not broken stably by pool order. -/
theorem chooseWorker_tie_counterexample :
    chooseWorkerWithMostVolumes [] "/tmp/build/abc"
      [{ name := "w1" }, { name := "w2" }] [] =
      .ok (some { name := "w2" }, [], []) ∧
    inputsOn [] "/tmp/build/abc" [] { name := "w1" } = .ok ([], []) ∧
    inputsOn [] "/tmp/build/abc" [] { name := "w2" } = .ok ([], []) ∧
    ({ name := "w2" } : Worker) ≠ { name := "w1" } :=
  ⟨rfl, rfl, rfl, by decide⟩

theorem sourceFor_cons (repo : SourceRepository) (name n2 : String)
    (src : ArtifactSource) :
    sourceFor ((name, src) :: repo) n2 =
      if name == n2 then some src else sourceFor repo n2 := by
  by_cases h : name == n2
  · rw [if_pos h]
    simp [sourceFor, h, List.find?_cons_of_pos]
  · rw [if_neg h]
    simp [sourceFor, h, List.find?_cons_of_neg]

theorem sourceFor_registerRepo_isSome (repo : SourceRepository) (name n2 : String)
    (src : ArtifactSource) (h : (sourceFor repo n2).isSome) :
    (sourceFor (registerRepo repo name src) n2).isSome := by
  rw [registerRepo, sourceFor_cons]
  by_cases he : name == n2
  · rw [if_pos he]; rfl
  · rw [if_neg he]; exact h

theorem registerMatchingMounts_cons (ctx : StepCtx) (output : TaskOutputConfig)
    (mnt : VolumeMount) (rest : List VolumeMount) (acc : SourceRepository) :
    registerMatchingMounts ctx output (mnt :: rest) acc =
      registerMatchingMounts ctx output rest
        (if mnt.mountPath == artifactsPath ctx.artifactsRoot output then
          registerRepo acc output.name
            (.containerSource ctx.artifactsRoot output mnt.volume)
        else acc) := by
  rw [registerMatchingMounts, registerMatchingMounts, List.foldl_cons]

theorem registerMatchingMounts_mono (ctx : StepCtx) (output : TaskOutputConfig)
    (name : String) :
    ∀ (mounts : List VolumeMount) (acc : SourceRepository),
      (sourceFor acc name).isSome →
      (sourceFor (registerMatchingMounts ctx output mounts acc) name).isSome := by
  intro mounts
  induction mounts with
  | nil => intro acc h; exact h
  | cons mnt rest ih =>
    intro acc h
    rw [registerMatchingMounts_cons]
    apply ih
    by_cases hp : mnt.mountPath == artifactsPath ctx.artifactsRoot output
    · rw [if_pos hp]
      exact sourceFor_registerRepo_isSome acc output.name name _ h
    · rw [if_neg hp]
      exact h

theorem registerMatchingMounts_hit (ctx : StepCtx) (output : TaskOutputConfig) :
    ∀ (mounts : List VolumeMount) (acc : SourceRepository),
      (∃ mnt ∈ mounts, mnt.mountPath = artifactsPath ctx.artifactsRoot output) →
      (sourceFor (registerMatchingMounts ctx output mounts acc)
        output.name).isSome := by
  intro mounts
  induction mounts with
  | nil =>
    intro acc h
    obtain ⟨mnt, hm, _⟩ := h
    cases hm
  | cons mnt rest ih =>
    intro acc h
    rw [registerMatchingMounts_cons]
    by_cases hp : mnt.mountPath == artifactsPath ctx.artifactsRoot output
    · rw [if_pos hp]
      apply registerMatchingMounts_mono
      rw [sourceFor_registerRepo_self]
      rfl
    · rw [if_neg hp]
      obtain ⟨m2, hm2, hq⟩ := h
      rcases List.mem_cons.mp hm2 with rfl | hm2
      · exact absurd (beq_iff_eq.mpr hq) hp
      · exact ih acc ⟨m2, hm2, hq⟩

theorem registerOneOutput_nil (ctx : StepCtx) (acc : SourceRepository)
    (out : TaskOutputConfig) :
    registerOneOutput ctx [] acc out =
      registerRepo acc out.name (.containerSource ctx.artifactsRoot out "") := rfl

theorem registerOneOutput_mono (ctx : StepCtx) (mounts : List VolumeMount)
    (name : String) (acc : SourceRepository) (out : TaskOutputConfig)
    (h : (sourceFor acc name).isSome) :
    (sourceFor (registerOneOutput ctx mounts acc out) name).isSome := by
  rw [registerOneOutput]
  by_cases h0 : 0 < mounts.length
  · rw [if_pos h0]
    exact registerMatchingMounts_mono ctx out name mounts acc h
  · rw [if_neg h0]
    exact sourceFor_registerRepo_isSome acc out.name name _ h

theorem registerOneOutput_hit (ctx : StepCtx) (mounts : List VolumeMount)
    (acc : SourceRepository) (out : TaskOutputConfig)
    (h : ∃ mnt ∈ mounts, mnt.mountPath = artifactsPath ctx.artifactsRoot out) :
    (sourceFor (registerOneOutput ctx mounts acc out) out.name).isSome := by
  rw [registerOneOutput]
  by_cases h0 : 0 < mounts.length
  · rw [if_pos h0]
    exact registerMatchingMounts_hit ctx out mounts acc h
  · rw [if_neg h0]
    rw [sourceFor_registerRepo_self]
    rfl

theorem foldl_registerOneOutput_mono (ctx : StepCtx) (mounts : List VolumeMount)
    (name : String) :
    ∀ (outputs : List TaskOutputConfig) (acc : SourceRepository),
      (sourceFor acc name).isSome →
      (sourceFor (outputs.foldl (registerOneOutput ctx mounts) acc) name).isSome := by
  intro outputs
  induction outputs with
  | nil => intro acc h; exact h
  | cons o rest ih =>
    intro acc h
    rw [List.foldl_cons]
    exact ih _ (registerOneOutput_mono ctx mounts name acc o h)

theorem streamFold_registered (ctx : StepCtx) :
    ∀ (outputs : List TaskOutputConfig) (acc : SourceRepository),
      (∀ name, (∃ o, sourceFor acc name =
          some (.containerSource ctx.artifactsRoot o "")) →
        ∃ o, sourceFor (outputs.foldl (registerOneOutput ctx []) acc) name =
          some (.containerSource ctx.artifactsRoot o "")) ∧
      (∀ out ∈ outputs,
        ∃ o, sourceFor (outputs.foldl (registerOneOutput ctx []) acc) out.name =
          some (.containerSource ctx.artifactsRoot o "")) := by
  intro outputs
  induction outputs with
  | nil =>
    intro acc
    exact ⟨fun name h => h, by simp⟩
  | cons out rest ih =>
    intro acc
    constructor
    · intro name h
      rw [List.foldl_cons]
      apply (ih _).1
      rw [registerOneOutput_nil, registerRepo, sourceFor_cons]
      by_cases he : out.name == name
      · rw [if_pos he]
        exact ⟨out, rfl⟩
      · rw [if_neg he]
        exact h
    · intro x hx
      rw [List.foldl_cons]
      rcases List.mem_cons.mp hx with rfl | hx
      · apply (ih _).1
        rw [registerOneOutput_nil, registerRepo, sourceFor_cons]
        rw [if_pos (beq_iff_eq.mpr rfl)]
        exact ⟨x, rfl⟩
      · exact (ih _).2 x hx

theorem matchedFold_registered (ctx : StepCtx) (mounts : List VolumeMount) :
    ∀ (outputs : List TaskOutputConfig) (acc : SourceRepository),
      (∀ out ∈ outputs, ∃ mnt ∈ mounts,
        mnt.mountPath = artifactsPath ctx.artifactsRoot out) →
      ∀ out ∈ outputs,
        (sourceFor (outputs.foldl (registerOneOutput ctx mounts) acc)
          out.name).isSome := by
  intro outputs
  induction outputs with
  | nil =>
    intro acc _ out h
    cases h
  | cons o rest ih =>
    intro acc hall out hout
    rw [List.foldl_cons]
    rcases List.mem_cons.mp hout with rfl | hout
    · apply foldl_registerOneOutput_mono
      exact registerOneOutput_hit ctx mounts acc out
        (hall out (List.mem_cons_self out rest))
    · exact ih _ (fun x hx => hall x (List.mem_cons_of_mem o hx)) out hout

/-- Claim C7 (amended): on registration, when the container reports no
volume mounts at all, every declared output receives a streaming-only
source; and when every declared output's path matches some reported
mount, every declared output has a source registered.  (An output whose
path matches none of the reported mounts, while the container reports
at least one mount, receives no source — see the counterexample.) -/
theorem registerSource_outputs_amended (ctx : StepCtx) (config : TaskConfig)
    (c : Container) (repo : SourceRepository) :
    (c.volumeMounts = [] → ∀ out ∈ config.outputs,
      ∃ o, sourceFor (registerSource ctx config c repo) out.name =
        some (.containerSource ctx.artifactsRoot o "")) ∧
    ((∀ out ∈ config.outputs, ∃ mnt ∈ c.volumeMounts,
        mnt.mountPath = artifactsPath ctx.artifactsRoot out) →
      ∀ out ∈ config.outputs,
        (sourceFor (registerSource ctx config c repo) out.name).isSome) := by
  constructor
  · intro hmounts out hout
    have hne : config.outputs.isEmpty = false := by
      cases h : config.outputs with
      | nil => rw [h] at hout; cases hout
      | cons a l => rfl
    rw [registerSource, hmounts]
    rw [if_neg (by simp [hne])]
    exact (streamFold_registered ctx config.outputs repo).2 out hout
  · intro hall out hout
    have hne : config.outputs.isEmpty = false := by
      cases h : config.outputs with
      | nil => rw [h] at hout; cases hout
      | cons a l => rfl
    rw [registerSource]
    rw [if_neg (by simp [hne])]
    exact matchedFold_registered ctx c.volumeMounts config.outputs repo hall out hout

theorem registerSource_outputs_amended_witness :
    ∀ out ∈ ({ outputs := [{ name := "out" }] } : TaskConfig).outputs,
      ∃ o, sourceFor (registerSource {} { outputs := [{ name := "out" }] } {} [])
          out.name = some (.containerSource ({} : StepCtx).artifactsRoot o "") :=
  (registerSource_outputs_amended {} { outputs := [{ name := "out" }] } {} []).1 rfl

/-- Claim C7 counterexample: a run that returns success against a
container reporting a single volume mount that matches no declared
output path: the declared output `out` ends up with no registered
source at all — it does not receive a streaming-only source. -/
theorem registerSource_unmatchedOutput_counterexample :
    (taskRun {} { outputs := [{ name := "out" }] }
        { foundContainer := some
            { properties := [(taskProcessPropertyName, "7")]
              volumeMounts := [{ volume := "v1", mountPath := "/tmp/build/abc/other/" }] }
          waitOutcome := .exited 0 }
        []).result = .ok () ∧
    sourceFor
      (taskRun {} { outputs := [{ name := "out" }] }
        { foundContainer := some
            { properties := [(taskProcessPropertyName, "7")]
              volumeMounts := [{ volume := "v1", mountPath := "/tmp/build/abc/other/" }] }
          waitOutcome := .exited 0 }
        []).repo "out" = none ∧
    ({ name := "out" } : TaskOutputConfig) ∈
      ({ outputs := [{ name := "out" }] } : TaskConfig).outputs := by
  refine ⟨rfl, rfl, by simp⟩

theorem taskStep_selfSource_noVolume_witness :
    sourceFor (registerSource {} {} { properties := [] } [])
        ({} : StepCtx).sourceName = some .taskStepDir ∧
    ∀ w, ArtifactSource.VolumeOn .taskStepDir w = .ok none :=
  taskStep_selfSource_noVolume {} {} { properties := [] } [] rfl

end Atc
